import Mathlib

/-!
# betterreflect-app: the web server of `main.go`

A shallow embedding of `src/go/main.go`: the two request handlers
(`renderMainPage` and the `/links` closure of `main`), the route table that
`main` registers, and the parts of the libraries the handlers call: the SQL
queries, `time.Parse` with `time.RFC3339` (its RFC 3339 parser and its
layout-driven parser), `Time.Format`, and the router's `ServeHTTP` with its
redirect of paths that are not in clean form and `http.StripPrefix`.

The database is a value of type `DB`: the three tables in the order in which
the engine scans them, and a fault oracle that says which queries fail.
Templates and the markdown converter are parameters (`Env`).
-/

namespace BetterReflect

/-! ## Data model -/

/-- Go struct `Entry` (the field `Type` is spelled `Type_`). -/
structure Entry where
  Id : Int
  UserId : Int
  Type_ : String
  CreatedAt : String
  ModifiedAt : String
  Title : String
  Content : String
  Private : Bool
deriving DecidableEq, Repr

/-- Go struct `Link`. -/
structure Link where
  Id : Int
  UserId : Int
  CreatedAt : String
  ModifiedAt : String
  Title : String
  Url : String
  Comment : String
  CategoryId : String
deriving DecidableEq, Repr

/-- Go struct `LinkCategory`. -/
structure LinkCategory where
  Id : Int
  Name : String
  Links : List Link
deriving DecidableEq, Repr

/-- Go struct `EntryPageData`; `Content` is the `template.HTML` string. -/
structure EntryPageData where
  Title : String
  Content : String
  ModifiedAt : String
deriving DecidableEq, Repr

/-! ## The database -/

/-- A row of table `entries(id, user_id, type, created_at, modified_at, title,
content, private)`; the column `private` is the field `priv`, an integer. -/
structure EntryRow where
  id : Int
  user_id : Int
  type : String
  created_at : String
  modified_at : String
  title : String
  content : String
  priv : Int
deriving DecidableEq, Repr

/-- A row of table `link_categories(id, name)`. -/
structure LinkCategoryRow where
  id : Int
  name : String
deriving DecidableEq, Repr

/-- A row of table `links(id, user_id, created_at, modified_at, title, url,
comment, category_id)`. -/
structure LinkRow where
  id : Int
  user_id : Int
  created_at : String
  modified_at : String
  title : String
  url : String
  comment : String
  category_id : Int
deriving DecidableEq, Repr

/-- The error value a query returns: `sql.ErrNoRows`, or any other error of the
database layer with its message. -/
inductive SqlError where
  | errNoRows
  | other (msg : String)
deriving DecidableEq, Repr

/-- The database seen by one request: the tables, each in the order in which
the engine scans its rows, and `fault k`, the error with which the `k`-th query
issued by the handler fails (`none`: the query is executed). -/
structure DB where
  entries : List EntryRow
  link_categories : List LinkCategoryRow
  links : List LinkRow
  fault : Nat → Option String

/-- Conversion of a stored integer to a Go `bool` by `Scan`: `0` and `1` are
accepted, every other value is a conversion error. -/
def scanBool (v : Int) : Except SqlError Bool :=
  if v = 0 then .ok false
  else if v = 1 then .ok true
  else .error (.other "sql: Scan error: couldn't convert into type bool")

/-- The `Scan` call of `renderMainPage`: the eight columns, in order, into the
fields of `entry`. -/
def scanEntry (r : EntryRow) : Except SqlError Entry :=
  match scanBool r.priv with
  | .error e => .error e
  | .ok p => .ok
      { Id := r.id, UserId := r.user_id, Type_ := r.type, CreatedAt := r.created_at,
        ModifiedAt := r.modified_at, Title := r.title, Content := r.content, Private := p }

/-- The condition `type = ? AND user_id = 1 AND private = 0`. -/
def entryWhere (entryType : String) (r : EntryRow) : Bool :=
  r.type == entryType && r.user_id == 1 && r.priv == 0

/-- The call `db.QueryRow("SELECT * FROM entries WHERE type = ? AND user_id = 1
AND private = 0", entryType).Scan(...)`: the first row of the result set is
scanned, an empty result set is `sql.ErrNoRows`. -/
def queryRowEntry (db : DB) (entryType : String) : Except SqlError Entry :=
  match db.fault 0 with
  | some msg => .error (.other msg)
  | none =>
    match db.entries.find? (entryWhere entryType) with
    | none => .error .errNoRows
    | some r => scanEntry r

/-- The text of an error, as `fmt.Println(err)` prints it. -/
def SqlError.Error : SqlError → String
  | .errNoRows => "sql: no rows in result set"
  | .other msg => msg

/-! ## `time.Parse(time.RFC3339, _)` and `Format("2006-01-02 15:04h")` -/

/-- A Go `time.Time`, as the calendar fields it shows in its own location and
the offset of that location in seconds east of UTC. -/
structure Time where
  year : Nat
  month : Nat
  day : Nat
  hour : Nat
  min : Nat
  sec : Nat
  nsec : Nat
  offset : Int
deriving DecidableEq, Repr

/-- The zero value `time.Time{}`: January 1, year 1, 00:00:00 UTC. -/
def Time.zero : Time :=
  { year := 1, month := 1, day := 1, hour := 0, min := 0, sec := 0, nsec := 0, offset := 0 }

/-- The byte `'0' + d`. -/
def digitByte (d : Nat) : Char := Char.ofNat (48 + d)

/-- Go `appendInt` of package `time` for `x ≥ 0`: the decimal form of `x`,
padded with leading zeros to `width` digits. -/
def appendInt (x width : Nat) : List Char :=
  if width = 2 ∧ x < 100 then [digitByte (x / 10), digitByte (x % 10)]
  else if width = 4 ∧ x < 10000 then
    [digitByte (x / 1000), digitByte (x / 100 % 10), digitByte (x / 10 % 10), digitByte (x % 10)]
  else
    let ds := Nat.toDigits 10 x
    List.replicate (width - ds.length) '0' ++ ds

/-- The call `t.Format("2006-01-02 15:04h")`: year on four digits, month, day,
hour and minute on two, the separators and the final `h` literal. -/
def Time.Format (t : Time) : String :=
  String.mk (appendInt t.year 4 ++ '-' :: appendInt t.month 2 ++ '-' :: appendInt t.day 2
    ++ ' ' :: appendInt t.hour 2 ++ ':' :: appendInt t.min 2 ++ ['h'])

/-- Go `isDigit`. -/
def isDigit (c : Char) : Bool := decide ('0' ≤ c) && decide (c ≤ '9')

/-- The loop of `parseUint`: every byte is a decimal digit. -/
def parseUintLoop : List Char → Nat → Option Nat
  | [], x => some x
  | c :: cs, x => if isDigit c then parseUintLoop cs (x * 10 + (c.toNat - 48)) else none

/-- The closure `parseUint` of Go `parseRFC3339`: an unsigned decimal number
within `[lo, hi]`. -/
def parseUint (s : List Char) (lo hi : Nat) : Option Nat :=
  match parseUintLoop s 0 with
  | none => none
  | some x => if x < lo ∨ hi < x then none else some x

/-- Go `isLeap`. -/
def isLeap (year : Nat) : Bool :=
  year % 4 == 0 && (year % 100 != 0 || year % 400 == 0)

/-- Go `daysIn`. -/
def daysIn (month year : Nat) : Nat :=
  if month = 2 then (if isLeap year then 29 else 28)
  else 30 + ((month + month / 8) % 2)

/-- The slice `s[i:j]`. -/
def slice (s : List Char) (i j : Nat) : List Char := (s.drop i).take (j - i)

/-- Go `parseNanoseconds(value, nbytes)` where `digits` are the `nbytes - 1`
digits after the period: at most nine digits count, scaled to nanoseconds. -/
def parseNanoseconds (digits : List Char) : Nat :=
  let ds := digits.take 9
  (parseUintLoop ds 0).getD 0 * 10 ^ (9 - ds.length)

/-- The fractional second of `parseRFC3339`: a period followed by at least one
digit; the result is the nanoseconds and the rest of the input. -/
def parseFraction (s : List Char) : Nat × List Char :=
  match s with
  | '.' :: c :: cs =>
    if isDigit c then
      let ds := (c :: cs).takeWhile isDigit
      (parseNanoseconds ds, (c :: cs).drop ds.length)
    else (0, s)
  | _ => (0, s)

/-- The time zone of `parseRFC3339`: `Z`, or a sign, two digits of hours, a
colon and two digits of minutes; the result is the offset in seconds. -/
def parseZone (s : List Char) : Option Int :=
  if s = ['Z'] then some 0
  else if s.length ≠ 6 then none
  else
    match parseUint (slice s 1 3) 0 23, parseUint (slice s 4 6) 0 59 with
    | some hr, some mm =>
      if (s[0]? = some '-' ∨ s[0]? = some '+') ∧ s[3]? = some ':' then
        if s[0]? = some '-' then some (-(((hr * 60 + mm) * 60 : Nat) : Int))
        else some (((hr * 60 + mm) * 60 : Nat) : Int)
      else none
    | _, _ => none

/-- Go `parseRFC3339` of package `time`, the parser of the strict RFC 3339
form `2006-01-02T15:04:05[.fraction](Z|±07:00)` that `time.Parse` tries first
for the layout `time.RFC3339`: upper-case `T` and `Z`, a day that exists in the
month, hours 00-23, minutes and seconds 00-59. -/
def parseRFC3339 (s : List Char) : Option Time :=
  if s.length < 19 then none
  else
    match parseUint (slice s 0 4) 0 9999, parseUint (slice s 5 7) 1 12 with
    | some year, some month =>
      match parseUint (slice s 8 10) 1 (daysIn month year), parseUint (slice s 11 13) 0 23,
          parseUint (slice s 14 16) 0 59, parseUint (slice s 17 19) 0 59 with
      | some day, some hour, some min, some sec =>
        if s[4]? = some '-' ∧ s[7]? = some '-' ∧ s[10]? = some 'T' ∧ s[13]? = some ':'
            ∧ s[16]? = some ':' then
          let frac := parseFraction (s.drop 19)
          match parseZone frac.2 with
          | none => none
          | some off =>
            some { year := year, month := month, day := day, hour := hour, min := min,
                   sec := sec, nsec := frac.1, offset := off }
        else none
      | _, _, _, _ => none
    | _, _ => none

/-- Go `getnum(s, fixed)`: one or two leading digits as a number, two when
`fixed`, and the rest of the input. -/
def getnum (s : List Char) (fixed : Bool) : Option (Nat × List Char) :=
  match s with
  | [] => none
  | a :: rest =>
    if isDigit a then
      match rest with
      | [] => if fixed then none else some (a.toNat - 48, [])
      | b :: rest' =>
        if isDigit b then some ((a.toNat - 48) * 10 + (b.toNat - 48), rest')
        else if fixed then none else some (a.toNat - 48, b :: rest')
    else none

/-- Go `skip(value, pfx)` for a one-byte literal of the layout that is not a
space: the input must start with that byte. -/
def skipByte (c : Char) (s : List Char) : Option (List Char) :=
  match s with
  | [] => none
  | x :: rest => if x = c then some rest else none

/-- The fractional second that Go `parse` reads after the seconds although the
layout has none: a period or a comma followed by at least one digit. -/
def parseLayoutFraction (s : List Char) : Nat × List Char :=
  match s with
  | p :: c :: cs =>
    if (p = '.' ∨ p = ',') ∧ isDigit c then
      let ds := (c :: cs).takeWhile isDigit
      (parseNanoseconds ds, (c :: cs).drop ds.length)
    else (0, s)
  | _ => (0, s)

/-- The layout element `Z07:00` in Go `parse`: a leading `Z`, or a sign, two
digits, a colon and two digits, with hours up to 24 and minutes up to 60; the
result is the offset in seconds and the rest of the input. -/
def parseLayoutZone (s : List Char) : Option (Int × List Char) :=
  match s with
  | 'Z' :: rest => some (0, rest)
  | _ =>
    if s.length < 6 then none
    else if s[3]? ≠ some ':' then none
    else
      match getnum (slice s 1 3) true with
      | none => none
      | some (hr, _) =>
        match getnum (slice s 4 6) true with
        | none => none
        | some (mm, _) =>
          if 24 < hr ∨ 60 < mm then none
          else if s[0]? = some '+' then some ((((hr * 60 + mm) * 60 : Nat) : Int), s.drop 6)
          else if s[0]? = some '-' then some (-(((hr * 60 + mm) * 60 : Nat) : Int), s.drop 6)
          else none

/-- Go `parse(layout, value, UTC, Local)` for the layout `time.RFC3339`, that is
`2006-01-02T15:04:05Z07:00`: four digits of year, two of month and of day, one
or two of hour, two of minute and of second, an optional fraction, the zone, and
nothing after it; the day is checked against the month at the end. -/
def parseLayout (value : List Char) : Option Time :=
  if value.length < 4 then none
  else
    match parseUintLoop (value.take 4) 0 with
    | none => none
    | some year =>
      (skipByte '-' (value.drop 4)).bind fun v1 =>
      (getnum v1 true).bind fun (month, v2) =>
      if month = 0 ∨ 12 < month then none else
      (skipByte '-' v2).bind fun v3 =>
      (getnum v3 true).bind fun (day, v4) =>
      (skipByte 'T' v4).bind fun v5 =>
      (getnum v5 false).bind fun (hour, v6) =>
      if 24 ≤ hour then none else
      (skipByte ':' v6).bind fun v7 =>
      (getnum v7 true).bind fun (min, v8) =>
      if 60 ≤ min then none else
      (skipByte ':' v8).bind fun v9 =>
      (getnum v9 true).bind fun (sec, v10) =>
      if 60 ≤ sec then none else
      let frac := parseLayoutFraction v10
      (parseLayoutZone frac.2).bind fun (off, v11) =>
      if v11 ≠ [] then none
      else if day < 1 ∨ daysIn month year < day then none
      else some { year := year, month := month, day := day, hour := hour, min := min,
                  sec := sec, nsec := frac.1, offset := off }

/-- The call `time.Parse(time.RFC3339, value)`, `none` when it returns an error:
the RFC 3339 parser is tried first, then the parser driven by the layout. -/
def timeParse (value : String) : Option Time :=
  match parseRFC3339 value.data with
  | some t => some t
  | none => parseLayout value.data

/-! ## RFC 3339 -/

/-- The `time-numoffset` or `Z` of RFC 3339, in minutes east of UTC: `Z` or `z`,
or a sign, hours 00-23, a colon and minutes 00-59. -/
def rfc3339Offset (s : List Char) : Option Int :=
  if s = ['Z'] ∨ s = ['z'] then some 0
  else if s.length ≠ 6 then none
  else
    match parseUint (slice s 1 3) 0 23, parseUint (slice s 4 6) 0 59 with
    | some hr, some mm =>
      if s[3]? ≠ some ':' then none
      else if s[0]? = some '+' then some (((hr * 60 + mm : Nat) : Int))
      else if s[0]? = some '-' then some (-((hr * 60 + mm : Nat) : Int))
      else none
    | _, _ => none

/-- What follows an optional `time-secfrac` of RFC 3339, a period and one or
more digits. -/
def rfc3339AfterFraction (s : List Char) : Option (List Char) :=
  match s with
  | '.' :: c :: cs => if isDigit c then some ((c :: cs).dropWhile isDigit) else none
  | ['.'] => none
  | _ => some s

/-- A valid RFC 3339 timestamp (`date-time` of section 5.6): `full-date`, `T` or
`t`, `partial-time`, and `Z`, `z` or a numeric offset; the month is 01-12, the
day exists in the month, the hour is 00-23, the minute 00-59, the second 00-59,
or 60 for a leap second, at 23:59 UTC. -/
def validRFC3339 (s : List Char) : Bool :=
  decide (19 ≤ s.length) &&
  match parseUint (slice s 0 4) 0 9999, parseUint (slice s 5 7) 1 12,
      parseUint (slice s 11 13) 0 23, parseUint (slice s 14 16) 0 59,
      parseUint (slice s 17 19) 0 60 with
  | some year, some month, some hour, some min, some sec =>
    (parseUint (slice s 8 10) 1 (daysIn month year)).isSome &&
    decide (s[4]? = some '-') && decide (s[7]? = some '-') &&
    decide (s[10]? = some 'T' ∨ s[10]? = some 't') &&
    decide (s[13]? = some ':') && decide (s[16]? = some ':') &&
    match (rfc3339AfterFraction (s.drop 19)).bind rfc3339Offset with
    | none => false
    | some off => decide (sec ≤ 59 ∨ (((hour * 60 + min : Nat) : Int) - off) % 1440 = 1439)
  | _, _, _, _, _ => false

/-! ## The handlers -/

/-- What the handlers are given besides the database: the markdown converter
`markdown.ToHTML` and what each parsed template writes when executed. -/
structure Env where
  markdownToHTML : String → String
  baseTemplate : String → String
  entryTemplate : EntryPageData → String
  linksTemplate : List LinkCategory → String

/-- What one run of a handler does: the lines printed with `fmt.Println`, the
data of every `Execute` call of each template, the status code set on the
response writer (`none`: `WriteHeader` is not called) and the bytes written to
it. -/
structure Outcome where
  stdout : List String := []
  entryExec : List EntryPageData := []
  linksExec : List (List LinkCategory) := []
  baseExec : List String := []
  status : Option Nat := none
  body : String := ""
deriving DecidableEq, Repr

/-- Go `renderMainPage(entryType, w, r, db, baseTemplate, entryTemplate)`. -/
def renderMainPage (env : Env) (db : DB) (entryType : String) : Outcome :=
  match queryRowEntry db entryType with
  | .error .errNoRows => { stdout := ["No rows found"] }
  | .error (.other msg) => { stdout := [msg] }
  | .ok entry =>
    let htmlContent := env.markdownToHTML entry.Content
    let modifiedAt := (timeParse entry.ModifiedAt).getD Time.zero
    let data : EntryPageData :=
      { Title := entry.Title, Content := htmlContent, ModifiedAt := modifiedAt.Format }
    let content := env.entryTemplate data
    { entryExec := [data], baseExec := [content], body := env.baseTemplate content }

/-! ## The `/links` handler -/

/-- The clause `ORDER BY key ASC` on a text column: the rows in non-decreasing
order of the key, strings compared character by character. -/
def orderBy {α : Type} (key : α → String) (rows : List α) : List α :=
  rows.insertionSort (fun a b => (key a).data ≤ (key b).data)

/-- A row of `link_categories` into a `LinkCategory`: columns `id` and `name`;
the field `Links` has no column and stays empty. -/
def scanLinkCategory (r : LinkCategoryRow) : LinkCategory :=
  { Id := r.id, Name := r.name, Links := [] }

/-- A row of `links` into a `Link`; the integer `category_id` is converted to
the string field `CategoryId`. -/
def scanLink (r : LinkRow) : Link :=
  { Id := r.id, UserId := r.user_id, CreatedAt := r.created_at, ModifiedAt := r.modified_at,
    Title := r.title, Url := r.url, Comment := r.comment, CategoryId := toString r.category_id }

/-- The call `db.Select(&linkCategories, "SELECT * FROM link_categories ORDER BY
name ASC")`, the first query of the `/links` handler. -/
def selectLinkCategories (db : DB) : Except SqlError (List LinkCategory) :=
  match db.fault 0 with
  | some msg => .error (.other msg)
  | none => .ok ((orderBy LinkCategoryRow.name db.link_categories).map scanLinkCategory)

/-- The result set of `SELECT * FROM links WHERE category_id = ? ORDER BY title
ASC`, scanned into `Link` values. -/
def queryLinks (db : DB) (categoryId : Int) : List Link :=
  (orderBy LinkRow.title (db.links.filter (fun r => r.category_id == categoryId))).map scanLink

/-- The call `db.Select(&category.Links, "SELECT * FROM links WHERE category_id
= ? ORDER BY title ASC", category.Id)` issued as query number `k`: the scanned
rows are appended to the destination slice `dest`. -/
def selectLinks (db : DB) (k : Nat) (dest : List Link) (categoryId : Int) :
    Except SqlError (List Link) :=
  match db.fault k with
  | some msg => .error (.other msg)
  | none => .ok (dest ++ queryLinks db categoryId)

/-- The loop `for i, category := range linkCategories` of the `/links` handler,
`k` being the number of the next query: an error of a links query leaves the
loop (and the handler) at once. -/
def attachLinks (db : DB) : Nat → List LinkCategory → Except SqlError (List LinkCategory)
  | _, [] => .ok []
  | k, category :: rest =>
    match selectLinks db k category.Links category.Id with
    | .error e => .error e
    | .ok links =>
      match attachLinks db (k + 1) rest with
      | .error e => .error e
      | .ok rest' => .ok ({ category with Links := links } :: rest')

/-- The handler that `main` registers for `/links`. -/
def linksHandler (env : Env) (db : DB) : Outcome :=
  match selectLinkCategories db with
  | .error e => { stdout := [e.Error] }
  | .ok linkCategories =>
    match attachLinks db 1 linkCategories with
    | .error e => { stdout := [e.Error] }
    | .ok linkCategories =>
      let content := env.linksTemplate linkCategories
      { linksExec := [linkCategories], baseExec := [content], body := env.baseTemplate content }

/-! ## The route table -/

/-- How a route of the router matches the request path: `Path` is the whole
path (`HandleFunc`), `PathPfx` a leading part of it (`PathPrefix`). -/
inductive Matcher where
  | Path (tpl : String)
  | PathPfx (tpl : String)
deriving DecidableEq, Repr

/-- The handlers that `main` registers. -/
inductive Handler where
  | renderMainPage (entryType : String)
  | links
  | stripPfx (pfx : String)
deriving DecidableEq, Repr

/-- A route: its matcher and its handler. -/
structure Route where
  matcher : Matcher
  handler : Handler
deriving DecidableEq, Repr

/-- Whether a matcher accepts a request path. -/
def Matcher.Match : Matcher → String → Bool
  | .Path tpl, path => path == tpl
  | .PathPfx tpl, path => tpl.data.isPrefixOf path.data

/-- The routes of `main`, in the order of their registration. -/
def routes : List Route :=
  [ { matcher := .PathPfx "/static/", handler := .stripPfx "/static/" },
    { matcher := .Path "/", handler := .renderMainPage "maincontent" },
    { matcher := .Path "/privacypolicy", handler := .renderMainPage "privacypolicy" },
    { matcher := .Path "/links", handler := .links } ]

/-- The router's `Match`: the handler of the first registered route that
accepts the path. -/
def Router.Match (path : String) : Option Handler :=
  (routes.find? (fun r => r.matcher.Match path)).map Route.handler

/-- The URL of a request, as the handlers see it: the decoded path `Path` and
the escaped path `RawPath`, which is empty when the default escaping of `Path`
is the one the client sent. -/
structure URL where
  Path : String
  RawPath : String
deriving DecidableEq, Repr

/-- The elements of a path: the parts between the slashes. -/
def splitSlash : List Char → List (List Char)
  | [] => [[]]
  | c :: cs =>
    if c = '/' then [] :: splitSlash cs
    else
      match splitSlash cs with
      | [] => [[c]]
      | seg :: segs => (c :: seg) :: segs

/-- The elements that Go `path.Clean` keeps of a rooted path, last one first:
empty elements and `.` are dropped, `..` drops the element before it, and is
itself dropped at the root. -/
def cleanElements : List (List Char) → List (List Char) → List (List Char)
  | [], kept => kept
  | seg :: segs, kept =>
    if seg = [] ∨ seg = ['.'] then cleanElements segs kept
    else if seg = ['.', '.'] then cleanElements segs kept.tail
    else cleanElements segs (seg :: kept)

/-- Go `path.Clean` on a rooted path: the kept elements, each after a slash,
and `/` alone when none is kept. -/
def pathClean (p : List Char) : List Char :=
  match (cleanElements (splitSlash p) []).reverse with
  | [] => ['/']
  | segs => (segs.map fun seg => '/' :: seg).flatten

/-- The function `cleanPath` of the router: the path is made rooted and cleaned
with `path.Clean`, and a final slash is put back. -/
def cleanPath (path : String) : String :=
  if path.data = [] then "/"
  else
    let p := if path.data.head? = some '/' then path.data else '/' :: path.data
    let np := pathClean p
    if p.getLast? = some '/' ∧ np ≠ ['/'] then String.mk (np ++ ['/']) else String.mk np

/-- What serves a request. -/
inductive Served where
  | mainPage (entryType : String)
  | linksPage
  | fileServer (path : String)
  | notFound
  | movedPermanently (location : String)
deriving DecidableEq, Repr

/-- The handler `http.StripPrefix(pfx, fs)`: the file server gets the path
without `pfx` when the path, and the escaped path if there is one, begin with
it; otherwise the answer is not-found. -/
def StripPrefix (pfx : String) (u : URL) : Served :=
  if pfx.data = [] then .fileServer u.Path
  else if pfx.data.isPrefixOf u.Path.data ∧
      (u.RawPath = "" ∨ pfx.data.isPrefixOf u.RawPath.data) then
    .fileServer (String.mk (u.Path.data.drop pfx.data.length))
  else .notFound

/-- The router's `ServeHTTP`: a path that is not in its clean form is answered
with a redirect (301) to the clean form, before any route is looked at; then
the matched handler runs, and a path that no route accepts gets the router's
not-found handler. -/
def Router.ServeHTTP (u : URL) : Served :=
  if cleanPath u.Path ≠ u.Path then .movedPermanently (cleanPath u.Path)
  else
    match Router.Match u.Path with
    | none => .notFound
    | some (.renderMainPage entryType) => .mainPage entryType
    | some .links => .linksPage
    | some (.stripPfx pfx) => StripPrefix pfx u

/-! ## Vocabulary of the statements -/

/-- A row that satisfies `type = entryType AND user_id = 1 AND private = 0`. -/
def Matches (entryType : String) (r : EntryRow) : Prop :=
  r.type = entryType ∧ r.user_id = 1 ∧ r.priv = 0

instance (entryType : String) (r : EntryRow) : Decidable (Matches entryType r) :=
  inferInstanceAs (Decidable (r.type = entryType ∧ r.user_id = 1 ∧ r.priv = 0))

/-- The row `r` is the first row of `entries` that satisfies the condition of
the entry query. -/
def FirstMatch (db : DB) (entryType : String) (r : EntryRow) : Prop :=
  ∃ pre post, db.entries = pre ++ r :: post ∧ Matches entryType r ∧
    ∀ x ∈ pre, ¬ Matches entryType x

/-- The page data of a row of `entries`: its title, its content converted by
the markdown converter, and its modification time parsed and formatted. -/
def entryPageData (env : Env) (r : EntryRow) : EntryPageData :=
  { Title := r.title, Content := env.markdownToHTML r.content,
    ModifiedAt := ((timeParse r.modified_at).getD Time.zero).Format }

/-- An environment for examples: the converter wraps the text in a paragraph,
the templates put their data in a frame. -/
def sampleEnv : Env :=
  { markdownToHTML := fun s => "<p>" ++ s ++ "</p>"
    baseTemplate := fun html => "<html>" ++ html ++ "</html>"
    entryTemplate := fun d => d.Title ++ "|" ++ d.Content ++ "|" ++ d.ModifiedAt
    linksTemplate := fun cs =>
      String.join (cs.map fun c => c.Name ++ ":" ++ String.join (c.Links.map fun l => l.Title ++ ";")) }

/-- An `entries` row for examples. -/
def sampleRow (id : Int) (type : String) (user : Int) (modified title : String) (p : Int) :
    EntryRow :=
  { id := id, user_id := user, type := type, created_at := "2020-01-01T00:00:00Z",
    modified_at := modified, title := title, content := "# Hi", priv := p }

/-- A database for examples: two private rows, a row of another user, and two
public rows of type `maincontent`. -/
def sampleDB : DB :=
  { entries :=
      [ sampleRow 1 "maincontent" 1 "2023-01-01T10:00:00Z" "Secret" 1,
        sampleRow 2 "privacypolicy" 1 "2023-01-01T10:00:00Z" "Draft" 1,
        sampleRow 3 "maincontent" 2 "2023-01-01T10:00:00Z" "Other" 0,
        sampleRow 4 "maincontent" 1 "2023-05-06T07:08:09.5+02:00" "Home" 0,
        sampleRow 5 "maincontent" 1 "" "Home2" 0 ]
    link_categories := []
    links := []
    fault := fun _ => none }

/-- A database for examples whose `entries` table is one public `maincontent`
row of user 1 with the given modification time. -/
def sampleEntryDB (modified : String) : DB :=
  { entries := [sampleRow 1 "maincontent" 1 modified "Home" 0]
    link_categories := []
    links := []
    fault := fun _ => none }

/-- A `links` row for examples. -/
def sampleLink (id user : Int) (title : String) (category : Int) : LinkRow :=
  { id := id, user_id := user, created_at := "2020-01-01T00:00:00Z",
    modified_at := "2020-01-01T00:00:00Z", title := title, url := "https://example.org",
    comment := "", category_id := category }

/-- A database for examples: three categories, one of them without links, and
a link of a category that does not exist. -/
def sampleLinksDB : DB :=
  { entries := []
    link_categories :=
      [ { id := 1, name := "tools" }, { id := 2, name := "blogs" }, { id := 3, name := "empty" } ]
    links :=
      [ sampleLink 1 1 "zsh" 1, sampleLink 2 2 "awk" 1, sampleLink 3 1 "lwn" 2,
        sampleLink 4 1 "orphan" 9 ]
    fault := fun _ => none }

/-- One turn of the loop of the `/links` handler when the links query is
executed: the links of the category are appended to its `Links`. -/
def attached (db : DB) (c : LinkCategory) : LinkCategory :=
  { c with Links := c.Links ++ queryLinks db c.Id }

/-- The category list of the `/links` page: the categories in the order of
their names, each with the links of its id in the order of their titles. -/
def linksPage (db : DB) : List LinkCategory :=
  (orderBy LinkCategoryRow.name db.link_categories).map
    (fun r => { Id := r.id, Name := r.name, Links := queryLinks db r.id })

/-- The number that a string of decimal digits denotes, continuing from `x`. -/
def decValue (l : List Char) (x : Nat) : Nat := l.foldl (fun x c => x * 10 + (c.toNat - 48)) x

/-- The category list of the sample links database as the page shows it. -/
def sampleLinksPage : List LinkCategory :=
  [ { Id := 2, Name := "blogs", Links := [scanLink (sampleLink 3 1 "lwn" 2)] },
    { Id := 3, Name := "empty", Links := [] },
    { Id := 1, Name := "tools",
      Links := [scanLink (sampleLink 2 2 "awk" 1), scanLink (sampleLink 1 1 "zsh" 1)] } ]

/-! ## Lemmas on the entry query -/

theorem entryWhere_iff (entryType : String) (r : EntryRow) :
    entryWhere entryType r = true ↔ Matches entryType r := by
  simp [entryWhere, Matches, and_assoc]

theorem find_of_firstMatch {db : DB} {entryType : String} {r : EntryRow}
    (h : FirstMatch db entryType r) : db.entries.find? (entryWhere entryType) = some r := by
  obtain ⟨pre, post, heq, hm, hpre⟩ := h
  rw [heq]
  clear heq
  induction pre with
  | nil => simp [List.find?, (entryWhere_iff entryType r).2 hm]
  | cons x xs ih =>
    have hx : entryWhere entryType x = false := by
      have := hpre x (List.mem_cons_self _ _)
      rw [← entryWhere_iff] at this
      simpa using this
    simp only [List.cons_append, List.find?, hx]
    exact ih (fun y hy => hpre y (List.mem_cons_of_mem _ hy))

theorem firstMatch_of_find {db : DB} {entryType : String} {r : EntryRow}
    (h : db.entries.find? (entryWhere entryType) = some r) : FirstMatch db entryType r := by
  unfold FirstMatch
  generalize db.entries = l at h
  induction l with
  | nil => simp at h
  | cons x xs ih =>
    by_cases hx : entryWhere entryType x = true
    · simp only [List.find?, hx] at h
      cases h
      exact ⟨[], xs, rfl, (entryWhere_iff _ _).1 hx, by simp⟩
    · have hx' : entryWhere entryType x = false := by simpa using hx
      simp only [List.find?, hx'] at h
      obtain ⟨pre, post, hl, hm, hpre⟩ := ih h
      refine ⟨x :: pre, post, by simp [hl], hm, ?_⟩
      intro y hy
      rcases List.mem_cons.1 hy with rfl | hy
      · rw [← entryWhere_iff]; simpa using hx
      · exact hpre y hy

theorem scanEntry_of_matches {entryType : String} {r : EntryRow} (h : Matches entryType r) :
    scanEntry r = .ok
      { Id := r.id, UserId := r.user_id, Type_ := r.type, CreatedAt := r.created_at,
        ModifiedAt := r.modified_at, Title := r.title, Content := r.content, Private := false } := by
  simp [scanEntry, scanBool, h.2.2]

theorem queryRowEntry_of_firstMatch {db : DB} {entryType : String} {r : EntryRow}
    (hq : db.fault 0 = none) (h : FirstMatch db entryType r) :
    queryRowEntry db entryType = .ok
      { Id := r.id, UserId := r.user_id, Type_ := r.type, CreatedAt := r.created_at,
        ModifiedAt := r.modified_at, Title := r.title, Content := r.content, Private := false } := by
  have hm : Matches entryType r := by
    obtain ⟨_, _, _, hm, _⟩ := h
    exact hm
  simp [queryRowEntry, hq, find_of_firstMatch h, scanEntry_of_matches hm]

theorem renderMainPage_of_firstMatch (env : Env) {db : DB} {entryType : String} {r : EntryRow}
    (hq : db.fault 0 = none) (h : FirstMatch db entryType r) :
    renderMainPage env db entryType =
      { entryExec := [entryPageData env r],
        baseExec := [env.entryTemplate (entryPageData env r)],
        body := env.baseTemplate (env.entryTemplate (entryPageData env r)) } := by
  simp [renderMainPage, queryRowEntry_of_firstMatch hq h, entryPageData]

theorem queryRowEntry_cases (db : DB) (entryType : String) :
    (∃ msg, db.fault 0 = some msg ∧ queryRowEntry db entryType = .error (.other msg)) ∨
    (db.fault 0 = none ∧ (∀ r ∈ db.entries, ¬ Matches entryType r) ∧
      queryRowEntry db entryType = .error .errNoRows) ∨
    (db.fault 0 = none ∧ ∃ r, FirstMatch db entryType r) := by
  cases hq : db.fault 0 with
  | some msg => exact Or.inl ⟨msg, rfl, by simp [queryRowEntry, hq]⟩
  | none =>
    right
    cases hf : db.entries.find? (entryWhere entryType) with
    | none =>
      left
      refine ⟨rfl, ?_, by simp [queryRowEntry, hq, hf]⟩
      intro r hr hm
      have := List.find?_eq_none.1 hf r hr
      exact this ((entryWhere_iff _ _).2 hm)
    | some r => exact Or.inr ⟨rfl, r, firstMatch_of_find hf⟩

/-! ## The main-page handler -/

/-- C1 (privacy filter). For every `entries` table and every discriminator, in
particular `maincontent` and `privacypolicy`: whatever the entry template is
executed with is the page data of a row of that type whose `private` column is
0, the scanned entry has `Private = false`, and when every row of that type has
the flag set nothing is rendered: no template is executed and the response body
stays empty. -/
theorem privacy_filter (env : Env) (db : DB) (entryType : String) :
    (∀ d ∈ (renderMainPage env db entryType).entryExec,
        ∃ r ∈ db.entries, r.type = entryType ∧ r.priv = 0 ∧ d = entryPageData env r) ∧
    (∀ e, queryRowEntry db entryType = .ok e → e.Private = false) ∧
    ((∀ r ∈ db.entries, r.type = entryType → r.priv ≠ 0) →
        (renderMainPage env db entryType).entryExec = [] ∧
        (renderMainPage env db entryType).baseExec = [] ∧
        (renderMainPage env db entryType).body = "") := by
  rcases queryRowEntry_cases db entryType with ⟨msg, _, he⟩ | ⟨_, _, he⟩ | ⟨hq, r, hr⟩
  · simp [renderMainPage, he]
  · simp [renderMainPage, he]
  · have hm : Matches entryType r := by
      obtain ⟨_, _, _, hm, _⟩ := hr
      exact hm
    have hmem : r ∈ db.entries := by
      obtain ⟨pre, post, heq, _, _⟩ := hr
      simp [heq]
    refine ⟨?_, ?_, ?_⟩
    · intro d hd
      rw [renderMainPage_of_firstMatch env hq hr] at hd
      simp only [List.mem_singleton] at hd
      exact ⟨r, hmem, hm.1, hm.2.2, hd⟩
    · intro e he
      rw [queryRowEntry_of_firstMatch hq hr] at he
      cases he
      rfl
    · intro hall
      exact absurd hm.2.2 (hall r hmem hm.1)

/-- C1, on the sample database: both rows of type `privacypolicy` are private,
so the handler of `/privacypolicy` renders nothing. -/
theorem privacy_filter_witness :
    (∀ r ∈ sampleDB.entries, r.type = "privacypolicy" → r.priv ≠ 0) ∧
    (renderMainPage sampleEnv sampleDB "privacypolicy").entryExec = [] ∧
    (renderMainPage sampleEnv sampleDB "privacypolicy").baseExec = [] ∧
    (renderMainPage sampleEnv sampleDB "privacypolicy").body = "" :=
  ⟨by decide, (privacy_filter sampleEnv sampleDB "privacypolicy").2.2 (by decide)⟩

/-- C2 (entry selection). When the entry query is executed, the handler renders
an entry exactly when some row satisfies `type = entryType`, `user_id = 1` and
`private = 0`; it then executes the entry template once, with the title and the
converted content of the first such row, and writes the base template around
it. -/
theorem entry_selection (env : Env) (db : DB) (entryType : String) (hq : db.fault 0 = none) :
    ((renderMainPage env db entryType).entryExec ≠ [] ↔
        ∃ r ∈ db.entries, r.type = entryType ∧ r.user_id = 1 ∧ r.priv = 0) ∧
    (∀ r, FirstMatch db entryType r →
        (renderMainPage env db entryType).entryExec = [entryPageData env r] ∧
        (entryPageData env r).Title = r.title ∧
        (entryPageData env r).Content = env.markdownToHTML r.content ∧
        (renderMainPage env db entryType).body =
          env.baseTemplate (env.entryTemplate (entryPageData env r))) := by
  refine ⟨?_, ?_⟩
  · rcases queryRowEntry_cases db entryType with ⟨msg, hf, _⟩ | ⟨_, hno, he⟩ | ⟨_, r, hr⟩
    · rw [hq] at hf
      cases hf
    · constructor
      · intro h
        simp [renderMainPage, he] at h
      · rintro ⟨r, hr, hm⟩
        exact absurd hm (hno r hr)
    · constructor
      · intro _
        obtain ⟨pre, post, heq, hm, _⟩ := hr
        exact ⟨r, by simp [heq], hm⟩
      · intro _
        rw [renderMainPage_of_firstMatch env hq hr]
        simp
  · intro r hr
    rw [renderMainPage_of_firstMatch env hq hr]
    exact ⟨rfl, rfl, rfl, rfl⟩

/-- C2, on the sample database: row 4 is the first public `maincontent` row of
user 1 (rows 1 and 3 before it do not match, row 5 after it does), and it is
the one rendered. -/
theorem entry_selection_witness :
    sampleDB.fault 0 = none ∧
    ((renderMainPage sampleEnv sampleDB "maincontent").entryExec ≠ [] ↔
        ∃ r ∈ sampleDB.entries, r.type = "maincontent" ∧ r.user_id = 1 ∧ r.priv = 0) ∧
    (renderMainPage sampleEnv sampleDB "maincontent").entryExec =
      [{ Title := "Home", Content := "<p># Hi</p>", ModifiedAt := "2023-05-06 07:08h" }] :=
  ⟨rfl, (entry_selection sampleEnv sampleDB "maincontent" rfl).1, by decide⟩

/-- C4 (no-row and error paths). When no row matches the entry query, or the
query fails with a database error, `renderMainPage` returns after printing one
line: it executes neither template, sets no status code and writes no byte. -/
theorem no_row_and_error_paths (env : Env) (db : DB) (entryType : String) :
    (db.fault 0 = none → (∀ r ∈ db.entries, ¬ Matches entryType r) →
        queryRowEntry db entryType = .error .errNoRows ∧
        renderMainPage env db entryType = { stdout := ["No rows found"] }) ∧
    (∀ msg, db.fault 0 = some msg →
        queryRowEntry db entryType = .error (.other msg) ∧
        renderMainPage env db entryType = { stdout := [msg] }) ∧
    (∀ e, queryRowEntry db entryType = .error e →
        (renderMainPage env db entryType).entryExec = [] ∧
        (renderMainPage env db entryType).linksExec = [] ∧
        (renderMainPage env db entryType).baseExec = [] ∧
        (renderMainPage env db entryType).status = none ∧
        (renderMainPage env db entryType).body = "") := by
  refine ⟨?_, ?_, ?_⟩
  · intro hq hno
    rcases queryRowEntry_cases db entryType with ⟨msg, hf, _⟩ | ⟨_, _, he⟩ | ⟨_, r, hr⟩
    · rw [hq] at hf
      cases hf
    · exact ⟨he, by simp [renderMainPage, he]⟩
    · obtain ⟨pre, post, heq, hm, _⟩ := hr
      exact absurd hm (hno r (by simp [heq]))
  · intro msg hf
    have he : queryRowEntry db entryType = .error (.other msg) := by
      simp [queryRowEntry, hf]
    exact ⟨he, by simp [renderMainPage, he]⟩
  · intro e he
    cases e <;> simp [renderMainPage, he]

/-- C4, on the sample database: no row of type `imprint` exists, and with a
failing database the `maincontent` query is an error; both leave the response
untouched. -/
theorem no_row_and_error_paths_witness :
    renderMainPage sampleEnv sampleDB "imprint" = { stdout := ["No rows found"] } ∧
    renderMainPage sampleEnv { sampleDB with fault := fun _ => some "database is locked" }
      "maincontent" = { stdout := ["database is locked"] } :=
  ⟨((no_row_and_error_paths sampleEnv sampleDB "imprint").1 rfl (by decide)).2,
   ((no_row_and_error_paths sampleEnv
      { sampleDB with fault := fun _ => some "database is locked" } "maincontent").2.1
      "database is locked" rfl).2⟩

/-- C10, as stated, fails: `2023-05-06T7:08:09Z`, with a one-digit hour, is not
a valid RFC 3339 timestamp, yet `time.Parse` accepts it and the page shows
`2023-05-06 07:08h`, not the zero time. -/
theorem timestamp_parse_failure_counterexample :
    validRFC3339 "2023-05-06T7:08:09Z".data = false ∧
    (renderMainPage sampleEnv (sampleEntryDB "2023-05-06T7:08:09Z") "maincontent").entryExec =
      [{ Title := "Home", Content := "<p># Hi</p>", ModifiedAt := "2023-05-06 07:08h" }] ∧
    (renderMainPage sampleEnv (sampleEntryDB "2023-05-06T7:08:09Z") "maincontent").entryExec ≠
      [{ Title := "Home", Content := "<p># Hi</p>", ModifiedAt := "0001-01-01 00:00h" }] := by
  refine ⟨by decide, by decide, by decide⟩

/-- C10, amended (timestamp parse failure). When `time.Parse` with the layout
`time.RFC3339` returns an error for the `modified_at` of the selected row, the
handler goes on: it executes the entry template once with the row's title, its
converted content and the formatting of the zero time, `0001-01-01 00:00h`, and
writes the base template. -/
theorem timestamp_parse_failure (env : Env) (db : DB) (entryType : String) (r : EntryRow)
    (hq : db.fault 0 = none) (hr : FirstMatch db entryType r)
    (hparse : timeParse r.modified_at = none) :
    (renderMainPage env db entryType).entryExec =
      [{ Title := r.title, Content := env.markdownToHTML r.content,
         ModifiedAt := "0001-01-01 00:00h" }] ∧
    (renderMainPage env db entryType).baseExec = [env.entryTemplate (entryPageData env r)] ∧
    (renderMainPage env db entryType).body =
      env.baseTemplate (env.entryTemplate (entryPageData env r)) ∧
    (entryPageData env r).ModifiedAt = "0001-01-01 00:00h" := by
  have hz : Time.zero.Format = "0001-01-01 00:00h" := by decide
  rw [renderMainPage_of_firstMatch env hq hr]
  simp [entryPageData, hparse, hz]

/-- C10, amended, on the sample database with row 4 removed: the first matching
row is row 5, whose `modified_at` is the empty string, which `time.Parse`
rejects. -/
theorem timestamp_parse_failure_witness :
    timeParse "" = none ∧
    (renderMainPage sampleEnv { sampleDB with entries := sampleDB.entries.eraseIdx 3 }
      "maincontent").entryExec =
      [{ Title := "Home2", Content := "<p># Hi</p>", ModifiedAt := "0001-01-01 00:00h" }] :=
  ⟨by decide,
   (timestamp_parse_failure sampleEnv { sampleDB with entries := sampleDB.entries.eraseIdx 3 }
      "maincontent" (sampleRow 5 "maincontent" 1 "" "Home2" 0) rfl
      ⟨[sampleRow 1 "maincontent" 1 "2023-01-01T10:00:00Z" "Secret" 1,
        sampleRow 2 "privacypolicy" 1 "2023-01-01T10:00:00Z" "Draft" 1,
        sampleRow 3 "maincontent" 2 "2023-01-01T10:00:00Z" "Other" 0], [], rfl,
        by decide, by decide⟩
      (by decide)).1⟩

/-! ## Parsing and formatting the modification time -/

theorem isDigit_iff (c : Char) : isDigit c = true ↔ 48 ≤ c.toNat ∧ c.toNat ≤ 57 := by
  simp only [isDigit, Bool.and_eq_true, decide_eq_true_eq]
  rw [Char.le_def, Char.le_def]
  rfl

theorem digitByte_toNat (c : Char) (h : isDigit c = true) : digitByte (c.toNat - 48) = c := by
  rw [isDigit_iff] at h
  unfold digitByte
  have : 48 + (c.toNat - 48) = c.toNat := by omega
  rw [this]
  exact Char.ofNat_toNat c

theorem parseUint_two {a b : Char} {lo hi x : Nat} (h : parseUint [a, b] lo hi = some x) :
    isDigit a = true ∧ isDigit b = true ∧ x = (a.toNat - 48) * 10 + (b.toNat - 48) ∧
      lo ≤ x ∧ x ≤ hi := by
  unfold parseUint at h
  simp only [parseUintLoop] at h
  by_cases ha : isDigit a = true
  · by_cases hb : isDigit b = true
    · simp only [ha, hb, if_true] at h
      split at h
      · cases h
      · rename_i hx
        cases h
        refine ⟨ha, hb, by omega, by omega, by omega⟩
    · simp [ha, hb] at h
  · simp [ha] at h

theorem parseUint_four {a b c d : Char} {lo hi x : Nat}
    (h : parseUint [a, b, c, d] lo hi = some x) :
    isDigit a = true ∧ isDigit b = true ∧ isDigit c = true ∧ isDigit d = true ∧
      x = (a.toNat - 48) * 1000 + (b.toNat - 48) * 100 + (c.toNat - 48) * 10 + (d.toNat - 48) ∧
      lo ≤ x ∧ x ≤ hi := by
  unfold parseUint at h
  simp only [parseUintLoop] at h
  by_cases ha : isDigit a = true
  · by_cases hb : isDigit b = true
    · by_cases hc : isDigit c = true
      · by_cases hd : isDigit d = true
        · simp only [ha, hb, hc, hd, if_true] at h
          split at h
          · cases h
          · rename_i hx
            cases h
            refine ⟨ha, hb, hc, hd, by omega, by omega, by omega⟩
        · simp [ha, hb, hc, hd] at h
      · simp [ha, hb, hc] at h
    · simp [ha, hb] at h
  · simp [ha] at h

theorem appendInt_two {a b : Char} (ha : isDigit a = true) (hb : isDigit b = true) :
    appendInt ((a.toNat - 48) * 10 + (b.toNat - 48)) 2 = [a, b] := by
  have ha' := (isDigit_iff a).1 ha
  have hb' := (isDigit_iff b).1 hb
  have hlt : (a.toNat - 48) * 10 + (b.toNat - 48) < 100 := by omega
  have h1 : ((a.toNat - 48) * 10 + (b.toNat - 48)) / 10 = a.toNat - 48 := by omega
  have h2 : ((a.toNat - 48) * 10 + (b.toNat - 48)) % 10 = b.toNat - 48 := by omega
  simp only [appendInt, hlt, and_self, if_true, h1, h2, digitByte_toNat a ha, digitByte_toNat b hb]

theorem appendInt_four {a b c d : Char} (ha : isDigit a = true) (hb : isDigit b = true)
    (hc : isDigit c = true) (hd : isDigit d = true) :
    appendInt ((a.toNat - 48) * 1000 + (b.toNat - 48) * 100 + (c.toNat - 48) * 10
      + (d.toNat - 48)) 4 = [a, b, c, d] := by
  have ha' := (isDigit_iff a).1 ha
  have hb' := (isDigit_iff b).1 hb
  have hc' := (isDigit_iff c).1 hc
  have hd' := (isDigit_iff d).1 hd
  generalize hx : (a.toNat - 48) * 1000 + (b.toNat - 48) * 100 + (c.toNat - 48) * 10
      + (d.toNat - 48) = x
  have hlt : x < 10000 := by omega
  have h1 : x / 1000 = a.toNat - 48 := by omega
  have h2 : x / 100 % 10 = b.toNat - 48 := by omega
  have h3 : x / 10 % 10 = c.toNat - 48 := by omega
  have h4 : x % 10 = d.toNat - 48 := by omega
  have hw : ¬ ((4 : Nat) = 2 ∧ x < 100) := by omega
  simp only [appendInt, hw, if_false, hlt, and_self, if_true, h1, h2, h3, h4,
    digitByte_toNat a ha, digitByte_toNat b hb, digitByte_toNat c hc, digitByte_toNat d hd]


theorem parseRFC3339_shape {s : List Char} {t : Time} (h : parseRFC3339 s = some t) :
    ∃ y1 y2 y3 y4 m1 m2 d1 d2 h1 h2 n1 n2 : Char,
      (isDigit y1 ∧ isDigit y2 ∧ isDigit y3 ∧ isDigit y4 ∧ isDigit m1 ∧ isDigit m2 ∧
        isDigit d1 ∧ isDigit d2 ∧ isDigit h1 ∧ isDigit h2 ∧ isDigit n1 ∧ isDigit n2) ∧
      s.take 16 = [y1, y2, y3, y4, '-', m1, m2, '-', d1, d2, 'T', h1, h2, ':', n1, n2] ∧
      t.Format = String.mk [y1, y2, y3, y4, '-', m1, m2, '-', d1, d2, ' ', h1, h2, ':', n1, n2, 'h'] := by
  rcases s with _ | ⟨c0, s⟩
  · simp [parseRFC3339] at h
  rcases s with _ | ⟨c1, s⟩
  · simp [parseRFC3339] at h
  rcases s with _ | ⟨c2, s⟩
  · simp [parseRFC3339] at h
  rcases s with _ | ⟨c3, s⟩
  · simp [parseRFC3339] at h
  rcases s with _ | ⟨c4, s⟩
  · simp [parseRFC3339] at h
  rcases s with _ | ⟨c5, s⟩
  · simp [parseRFC3339] at h
  rcases s with _ | ⟨c6, s⟩
  · simp [parseRFC3339] at h
  rcases s with _ | ⟨c7, s⟩
  · simp [parseRFC3339] at h
  rcases s with _ | ⟨c8, s⟩
  · simp [parseRFC3339] at h
  rcases s with _ | ⟨c9, s⟩
  · simp [parseRFC3339] at h
  rcases s with _ | ⟨c10, s⟩
  · simp [parseRFC3339] at h
  rcases s with _ | ⟨c11, s⟩
  · simp [parseRFC3339] at h
  rcases s with _ | ⟨c12, s⟩
  · simp [parseRFC3339] at h
  rcases s with _ | ⟨c13, s⟩
  · simp [parseRFC3339] at h
  rcases s with _ | ⟨c14, s⟩
  · simp [parseRFC3339] at h
  rcases s with _ | ⟨c15, s⟩
  · simp [parseRFC3339] at h
  rcases s with _ | ⟨c16, s⟩
  · simp [parseRFC3339] at h
  rcases s with _ | ⟨c17, s⟩
  · simp [parseRFC3339] at h
  rcases s with _ | ⟨c18, s⟩
  · simp [parseRFC3339] at h
  simp only [parseRFC3339, slice, List.drop, List.take, List.length_cons] at h
  have hlen : ¬ (s.length + 1 + 1 + 1 + 1 + 1 + 1 + 1 + 1 + 1 + 1 + 1 + 1 + 1 + 1 + 1 + 1 + 1
      + 1 + 1 < 19) := by omega
  rw [if_neg hlen] at h
  rcases hy : parseUint [c0, c1, c2, c3] 0 9999 with _ | year
  · simp [hy] at h
  rcases hm : parseUint [c5, c6] 1 12 with _ | month
  · simp [hy, hm] at h
  simp only [hy, hm] at h
  rcases hd : parseUint [c8, c9] 1 (daysIn month year) with _ | day
  · simp [hd] at h
  rcases hh : parseUint [c11, c12] 0 23 with _ | hour
  · simp [hd, hh] at h
  rcases hn : parseUint [c14, c15] 0 59 with _ | min
  · simp [hd, hh, hn] at h
  rcases hs : parseUint [c17, c18] 0 59 with _ | sec
  · simp [hd, hh, hn, hs] at h
  simp only [hd, hh, hn, hs, List.getElem?_cons_succ, List.getElem?_cons_zero] at h
  split at h
  · rename_i hsep
    simp only [Option.some.injEq] at hsep
    obtain ⟨h4, h7, h10, h13, h16⟩ := hsep
    subst h4 h7 h10 h13 h16
    rcases hz : parseZone (parseFraction s).2 with _ | off
    · simp [hz] at h
    simp only [hz, Option.some.injEq] at h
    subst h
    obtain ⟨y1, y2, y3, y4, hyv, _, _⟩ := parseUint_four hy
    obtain ⟨m1, m2, hmv, _, _⟩ := parseUint_two hm
    obtain ⟨d1, d2, hdv, _, _⟩ := parseUint_two hd
    obtain ⟨h1, h2, hhv, _, _⟩ := parseUint_two hh
    obtain ⟨n1, n2, hnv, _, _⟩ := parseUint_two hn
    refine ⟨c0, c1, c2, c3, c5, c6, c8, c9, c11, c12, c14, c15,
      ⟨y1, y2, y3, y4, m1, m2, d1, d2, h1, h2, n1, n2⟩, rfl, ?_⟩
    simp only [Time.Format, hyv, hmv, hdv, hhv, hnv, appendInt_four y1 y2 y3 y4,
      appendInt_two m1 m2, appendInt_two d1 d2, appendInt_two h1 h2, appendInt_two n1 n2,
      List.cons_append, List.nil_append]
  · cases h

theorem drop_length_takeWhile (p : Char → Bool) (l : List Char) :
    l.drop (l.takeWhile p).length = l.dropWhile p := by
  induction l with
  | nil => rfl
  | cons a l ih =>
    by_cases h : p a = true
    · simp [List.takeWhile_cons, List.dropWhile_cons, h, ih]
    · simp [List.takeWhile_cons, List.dropWhile_cons, h]

theorem parseZone_of_rfc3339Offset {z : List Char} {off : Int} (h : rfc3339Offset z = some off)
    (hz : 'z' ∉ z) : (parseZone z).isSome = true := by
  unfold rfc3339Offset at h
  unfold parseZone
  by_cases hZ : z = ['Z']
  · simp [hZ]
  · have hz' : z ≠ ['z'] := by
      rintro rfl
      simp at hz
    simp only [hZ, hz', or_self, if_false] at h ⊢
    by_cases hlen : z.length ≠ 6
    · simp [hlen] at h
    · simp only [hlen, if_false] at h ⊢
      rcases hh : parseUint (slice z 1 3) 0 23 with _ | hr
      · simp [hh] at h
      rcases hm : parseUint (slice z 4 6) 0 59 with _ | mm
      · simp [hh, hm] at h
      simp only [hh, hm] at h ⊢
      by_cases h3 : z[3]? = some ':'
      · by_cases hp : z[0]? = some '+'
        · have hne : ¬ (z[0]? = some '-') := by rw [hp]; decide
          simp [h3, hp]
        · by_cases hn : z[0]? = some '-'
          · simp [h3, hn]
          · simp [h3, hp, hn] at h
      · simp [h3] at h

theorem parseZone_of_rfc3339 {rest : List Char} {off : Int}
    (h : (rfc3339AfterFraction rest).bind rfc3339Offset = some off) (hz : 'z' ∉ rest) :
    (parseZone (parseFraction rest).2).isSome = true := by
  obtain ⟨z, hfrac, hoff⟩ := Option.bind_eq_some.1 h
  match rest, hfrac, hz with
  | [], hfrac, hz =>
    simp [rfc3339AfterFraction] at hfrac
    subst hfrac
    simp [rfc3339Offset] at hoff
  | [x], hfrac, hz =>
    by_cases hx : x = '.'
    · subst hx
      simp [rfc3339AfterFraction] at hfrac
    · have hf : rfc3339AfterFraction [x] = some [x] := by
        unfold rfc3339AfterFraction
        split
        · rename_i heq; simp at heq
        · rename_i heq; simp at heq; exact absurd heq hx
        · rfl
      rw [hf] at hfrac
      cases hfrac
      have hp : parseFraction [x] = (0, [x]) := by
        unfold parseFraction
        split
        · rename_i heq; simp at heq
        · rfl
      rw [hp]
      exact parseZone_of_rfc3339Offset hoff hz
  | x :: c :: cs, hfrac, hz =>
    by_cases hx : x = '.'
    · subst hx
      by_cases hc : isDigit c = true
      · simp only [rfc3339AfterFraction, hc, if_true, Option.some.injEq] at hfrac
        subst hfrac
        simp only [parseFraction, hc, if_true, drop_length_takeWhile]
        refine parseZone_of_rfc3339Offset hoff ?_
        intro hmem
        exact hz (List.mem_cons_of_mem _ ((List.dropWhile_sublist _).subset hmem))
      · simp [rfc3339AfterFraction, hc] at hfrac
    · have hf : rfc3339AfterFraction (x :: c :: cs) = some (x :: c :: cs) := by
        unfold rfc3339AfterFraction
        split
        · rename_i heq; simp at heq; exact absurd heq.1 hx
        · rename_i heq; simp at heq
        · rfl
      rw [hf] at hfrac
      cases hfrac
      have hp : parseFraction (x :: c :: cs) = (0, x :: c :: cs) := by
        unfold parseFraction
        split
        · rename_i heq; simp at heq; exact absurd heq.1 hx
        · rfl
      rw [hp]
      exact parseZone_of_rfc3339Offset hoff hz

theorem parseUint_sixty {a b : Char} {x : Nat} (h : parseUint [a, b] 0 60 = some x)
    (hne : [a, b] ≠ ['6', '0']) : parseUint [a, b] 0 59 = some x := by
  obtain ⟨ha, hb, hx, _, hle⟩ := parseUint_two h
  have ha' := (isDigit_iff a).1 ha
  have hb' := (isDigit_iff b).1 hb
  have hlt : x ≤ 59 := by
    by_contra hcon
    apply hne
    have ea : a.toNat = 54 := by omega
    have eb : b.toNat = 48 := by omega
    have h1 := Char.ofNat_toNat a
    have h2 := Char.ofNat_toNat b
    rw [ea] at h1
    rw [eb] at h2
    rw [← h1, ← h2]
  unfold parseUint at h ⊢
  rcases hl : parseUintLoop [a, b] 0 with _ | y
  · simp [hl] at h
  · simp only [hl] at h ⊢
    split at h
    · cases h
    · cases h
      rw [if_neg (by omega)]

theorem parseRFC3339_of_valid {s : List Char} (hv : validRFC3339 s = true) (ht : 't' ∉ s)
    (hz : 'z' ∉ s) (hsec : slice s 17 19 ≠ ['6', '0']) : (parseRFC3339 s).isSome = true := by
  rcases s with _ | ⟨c0, s⟩
  · simp [validRFC3339] at hv
  rcases s with _ | ⟨c1, s⟩
  · simp [validRFC3339] at hv
  rcases s with _ | ⟨c2, s⟩
  · simp [validRFC3339] at hv
  rcases s with _ | ⟨c3, s⟩
  · simp [validRFC3339] at hv
  rcases s with _ | ⟨c4, s⟩
  · simp [validRFC3339] at hv
  rcases s with _ | ⟨c5, s⟩
  · simp [validRFC3339] at hv
  rcases s with _ | ⟨c6, s⟩
  · simp [validRFC3339] at hv
  rcases s with _ | ⟨c7, s⟩
  · simp [validRFC3339] at hv
  rcases s with _ | ⟨c8, s⟩
  · simp [validRFC3339] at hv
  rcases s with _ | ⟨c9, s⟩
  · simp [validRFC3339] at hv
  rcases s with _ | ⟨c10, s⟩
  · simp [validRFC3339] at hv
  rcases s with _ | ⟨c11, s⟩
  · simp [validRFC3339] at hv
  rcases s with _ | ⟨c12, s⟩
  · simp [validRFC3339] at hv
  rcases s with _ | ⟨c13, s⟩
  · simp [validRFC3339] at hv
  rcases s with _ | ⟨c14, s⟩
  · simp [validRFC3339] at hv
  rcases s with _ | ⟨c15, s⟩
  · simp [validRFC3339] at hv
  rcases s with _ | ⟨c16, s⟩
  · simp [validRFC3339] at hv
  rcases s with _ | ⟨c17, s⟩
  · simp [validRFC3339] at hv
  rcases s with _ | ⟨c18, s⟩
  · simp [validRFC3339] at hv
  simp only [validRFC3339, slice, List.drop, List.take, List.length_cons] at hv hsec
  simp only [parseRFC3339, slice, List.drop, List.take, List.length_cons]
  have hlen : ¬ (s.length + 1 + 1 + 1 + 1 + 1 + 1 + 1 + 1 + 1 + 1 + 1 + 1 + 1 + 1 + 1 + 1 + 1
      + 1 + 1 < 19) := by omega
  rw [if_neg hlen]
  rcases hy : parseUint [c0, c1, c2, c3] 0 9999 with _ | year
  · simp [hy] at hv
  rcases hm : parseUint [c5, c6] 1 12 with _ | month
  · simp [hy, hm] at hv
  rcases hh : parseUint [c11, c12] 0 23 with _ | hour
  · simp [hy, hm, hh] at hv
  rcases hn : parseUint [c14, c15] 0 59 with _ | min
  · simp [hy, hm, hh, hn] at hv
  rcases hs : parseUint [c17, c18] 0 60 with _ | sec
  · simp [hy, hm, hh, hn, hs] at hv
  simp only [hy, hm, hh, hn, hs, Bool.and_eq_true, decide_eq_true_eq,
    List.getElem?_cons_succ, List.getElem?_cons_zero, Option.some.injEq] at hv
  obtain ⟨_, ⟨⟨⟨⟨⟨hd, h4⟩, h7⟩, h10⟩, h13⟩, h16⟩, hrest⟩ := hv
  rcases hd' : parseUint [c8, c9] 1 (daysIn month year) with _ | day
  · simp [hd'] at hd
  have hs' := parseUint_sixty hs hsec
  have hT : c10 = 'T' := by
    rcases h10 with h | h
    · exact h
    · exfalso
      apply ht
      simp [h]
  have hzs : 'z' ∉ s := fun hmem => hz (by simp [hmem])
  rcases hb : (rfc3339AfterFraction s).bind rfc3339Offset with _ | off
  · simp [hb] at hrest
  have hzone := parseZone_of_rfc3339 hb hzs
  obtain ⟨o, ho⟩ := Option.isSome_iff_exists.1 hzone
  simp [hd', hs', h4, h7, hT, h13, h16, ho]

theorem timeParse_of_valid {s : String} (hv : validRFC3339 s.data = true) (ht : 't' ∉ s.data)
    (hz : 'z' ∉ s.data) (hsec : slice s.data 17 19 ≠ ['6', '0']) :
    ∃ t, parseRFC3339 s.data = some t ∧ timeParse s = some t := by
  obtain ⟨t, ht'⟩ := Option.isSome_iff_exists.1 (parseRFC3339_of_valid hv ht hz hsec)
  exact ⟨t, ht', by simp [timeParse, ht']⟩

/-- C6, as stated, fails: `1990-12-31T23:59:60Z`, a leap second, and
`2023-05-06t07:08:09z`, in lower case, are valid RFC 3339 timestamps, yet
`time.Parse` rejects both and the page shows the zero time `0001-01-01 00:00h`
instead of their date, hour and minute. -/
theorem timestamp_reformatting_counterexample :
    validRFC3339 "1990-12-31T23:59:60Z".data = true ∧
    (renderMainPage sampleEnv (sampleEntryDB "1990-12-31T23:59:60Z") "maincontent").entryExec =
      [{ Title := "Home", Content := "<p># Hi</p>", ModifiedAt := "0001-01-01 00:00h" }] ∧
    validRFC3339 "2023-05-06t07:08:09z".data = true ∧
    (renderMainPage sampleEnv (sampleEntryDB "2023-05-06t07:08:09z") "maincontent").entryExec =
      [{ Title := "Home", Content := "<p># Hi</p>", ModifiedAt := "0001-01-01 00:00h" }] := by
  refine ⟨by decide, by decide, by decide, by decide⟩

/-- C6, amended (timestamp reformatting). When the `modified_at` of the selected
row is a valid RFC 3339 timestamp written without lower-case `t` or `z` and
whose seconds are not `60`, it reads `YYYY-MM-DDTHH:MM...` with decimal digits,
and the `ModifiedAt` string passed to the entry template is `YYYY-MM-DD HH:MMh`
with the very same digits: same date, hour and minute, zero-padded as written,
seconds, fraction and zone offset dropped and no conversion to another zone. -/
theorem timestamp_reformatting (env : Env) (db : DB) (entryType : String) (r : EntryRow)
    (hq : db.fault 0 = none) (hr : FirstMatch db entryType r)
    (hvalid : validRFC3339 r.modified_at.data = true)
    (hupper : 't' ∉ r.modified_at.data ∧ 'z' ∉ r.modified_at.data)
    (hsec : slice r.modified_at.data 17 19 ≠ ['6', '0']) :
    ∃ y1 y2 y3 y4 m1 m2 d1 d2 h1 h2 n1 n2 : Char,
      (isDigit y1 ∧ isDigit y2 ∧ isDigit y3 ∧ isDigit y4 ∧ isDigit m1 ∧ isDigit m2 ∧
        isDigit d1 ∧ isDigit d2 ∧ isDigit h1 ∧ isDigit h2 ∧ isDigit n1 ∧ isDigit n2) ∧
      r.modified_at.data.take 16 =
        [y1, y2, y3, y4, '-', m1, m2, '-', d1, d2, 'T', h1, h2, ':', n1, n2] ∧
      (renderMainPage env db entryType).entryExec =
        [{ Title := r.title, Content := env.markdownToHTML r.content,
           ModifiedAt := String.mk
             [y1, y2, y3, y4, '-', m1, m2, '-', d1, d2, ' ', h1, h2, ':', n1, n2, 'h'] }] := by
  obtain ⟨t, hstrict, hparse⟩ := timeParse_of_valid hvalid hupper.1 hupper.2 hsec
  obtain ⟨y1, y2, y3, y4, m1, m2, d1, d2, h1, h2, n1, n2, hdig, htake, hfmt⟩ :=
    parseRFC3339_shape hstrict
  refine ⟨y1, y2, y3, y4, m1, m2, d1, d2, h1, h2, n1, n2, hdig, htake, ?_⟩
  rw [renderMainPage_of_firstMatch env hq hr]
  simp [entryPageData, hparse, hfmt]

/-- C6, amended, on the sample database: the selected row 4 has
`modified_at = 2023-05-06T07:08:09.5+02:00`. -/
theorem timestamp_reformatting_witness :
    validRFC3339 "2023-05-06T07:08:09.5+02:00".data = true ∧
    ∃ y1 y2 y3 y4 m1 m2 d1 d2 h1 h2 n1 n2 : Char,
      (isDigit y1 ∧ isDigit y2 ∧ isDigit y3 ∧ isDigit y4 ∧ isDigit m1 ∧ isDigit m2 ∧
        isDigit d1 ∧ isDigit d2 ∧ isDigit h1 ∧ isDigit h2 ∧ isDigit n1 ∧ isDigit n2) ∧
      "2023-05-06T07:08:09.5+02:00".data.take 16 =
        [y1, y2, y3, y4, '-', m1, m2, '-', d1, d2, 'T', h1, h2, ':', n1, n2] ∧
      (renderMainPage sampleEnv sampleDB "maincontent").entryExec =
        [{ Title := "Home", Content := sampleEnv.markdownToHTML "# Hi",
           ModifiedAt := String.mk
             [y1, y2, y3, y4, '-', m1, m2, '-', d1, d2, ' ', h1, h2, ':', n1, n2, 'h'] }] :=
  ⟨by decide,
   timestamp_reformatting sampleEnv sampleDB "maincontent"
    (sampleRow 4 "maincontent" 1 "2023-05-06T07:08:09.5+02:00" "Home" 0) rfl
    ⟨[sampleRow 1 "maincontent" 1 "2023-01-01T10:00:00Z" "Secret" 1,
      sampleRow 2 "privacypolicy" 1 "2023-01-01T10:00:00Z" "Draft" 1,
      sampleRow 3 "maincontent" 2 "2023-01-01T10:00:00Z" "Other" 0],
     [sampleRow 5 "maincontent" 1 "" "Home2" 0], rfl, by decide, by decide⟩
    (by decide) ⟨by decide, by decide⟩ (by decide)⟩

/-! ## Decimal notation of integers -/

theorem digitChar_toNat : ∀ m, m < 10 → (Nat.digitChar m).toNat - 48 = m ∧ Nat.digitChar m ≠ '-' := by
  decide

theorem decValue_toDigitsCore (fuel n : Nat) (ds : List Char) (h : n < fuel) :
    decValue (Nat.toDigitsCore 10 fuel n ds) 0 = decValue ds n ∧
    ((Nat.toDigitsCore 10 fuel n ds).head? ≠ some '-') := by
  induction fuel generalizing n ds with
  | zero => omega
  | succ fuel ih =>
    have hd := digitChar_toNat (n % 10) (Nat.mod_lt _ (by decide))
    unfold Nat.toDigitsCore
    by_cases h0 : n / 10 = 0
    · simp only [h0, if_true]
      refine ⟨?_, by simpa using hd.2⟩
      simp only [decValue, List.foldl_cons, hd.1]
      congr 1
      omega
    · simp only [h0, if_false]
      have := ih (n / 10) (Nat.digitChar (n % 10) :: ds) (by omega)
      refine ⟨?_, this.2⟩
      rw [this.1]
      simp only [decValue, List.foldl_cons, hd.1]
      congr 1
      omega

theorem natRepr_injective (a b : Nat) (h : Nat.repr a = Nat.repr b) : a = b := by
  have h' : Nat.toDigitsCore 10 (a + 1) a [] = Nat.toDigitsCore 10 (b + 1) b [] :=
    congrArg String.data h
  have ha := (decValue_toDigitsCore (a + 1) a [] (by omega)).1
  have hb := (decValue_toDigitsCore (b + 1) b [] (by omega)).1
  rw [h', hb] at ha
  simpa [decValue] using ha.symm

theorem intToString_injective (a b : Int) (h : toString a = toString b) : a = b := by
  cases a with
  | ofNat m =>
    cases b with
    | ofNat n =>
      have : Nat.repr m = Nat.repr n := h
      rw [natRepr_injective m n this]
    | negSucc n =>
      exfalso
      have h' : Nat.repr m = "-" ++ Nat.repr (n + 1) := h
      have hm := (decValue_toDigitsCore (m + 1) m [] (by omega)).2
      apply hm
      have := congrArg (fun s : String => s.data.head?) h'
      simpa [Nat.repr, Nat.toDigits, List.asString] using this
  | negSucc m =>
    cases b with
    | ofNat n =>
      exfalso
      have h' : "-" ++ Nat.repr (m + 1) = Nat.repr n := h
      have hn := (decValue_toDigitsCore (n + 1) n [] (by omega)).2
      apply hn
      have := congrArg (fun s : String => s.data.head?) h'
      simpa [Nat.repr, Nat.toDigits, List.asString] using this.symm
    | negSucc n =>
      have h' : "-" ++ Nat.repr (m + 1) = "-" ++ Nat.repr (n + 1) := h
      have : Nat.repr (m + 1) = Nat.repr (n + 1) := by
        have := congrArg (fun s : String => s.data) h'
        simp only [String.data_append, List.append_cancel_left_eq] at this
        exact String.ext this
      have := natRepr_injective _ _ this
      have : m = n := by omega
      rw [this]

/-! ## The `/links` handler -/

theorem orderBy_sorted {α : Type} (key : α → String) (rows : List α) :
    (orderBy key rows).Sorted (fun a b => key a ≤ key b) := by
  have hrel : ∀ a b : α, (key a).data ≤ (key b).data ↔ key a ≤ key b := fun a b =>
    String.le_iff_toList_le.symm
  haveI : IsTotal α (fun a b => (key a).data ≤ (key b).data) :=
    ⟨fun a b => by simp only [hrel]; exact le_total _ _⟩
  haveI : IsTrans α (fun a b => (key a).data ≤ (key b).data) :=
    ⟨fun a b c => by simp only [hrel]; exact le_trans⟩
  have h := List.sorted_insertionSort (fun a b : α => (key a).data ≤ (key b).data) rows
  unfold orderBy
  exact List.Pairwise.imp (fun {a b} hab => (hrel a b).1 hab) h

theorem orderBy_perm {α : Type} (key : α → String) (rows : List α) :
    (orderBy key rows).Perm rows :=
  List.perm_insertionSort _ rows

theorem queryLinks_sorted (db : DB) (categoryId : Int) :
    (queryLinks db categoryId).Sorted (fun a b => a.Title ≤ b.Title) := by
  unfold queryLinks
  rw [List.Sorted, List.pairwise_map]
  exact orderBy_sorted LinkRow.title _

theorem queryLinks_perm (db : DB) (categoryId : Int) :
    (queryLinks db categoryId).Perm
      ((db.links.filter (fun r => r.category_id = categoryId)).map scanLink) := by
  unfold queryLinks
  refine List.Perm.map _ ?_
  have h := orderBy_perm LinkRow.title (db.links.filter (fun r => r.category_id == categoryId))
  simpa using h

theorem attachLinks_ok (db : DB) (cats : List LinkCategory) (k : Nat) (out : List LinkCategory)
    (h : attachLinks db k cats = .ok out) : out = cats.map (attached db) := by
  induction cats generalizing k out with
  | nil => simp [attachLinks] at h; simp [h]
  | cons c rest ih =>
    simp only [attachLinks, selectLinks] at h
    cases hf : db.fault k with
    | some msg => simp [hf] at h
    | none =>
      simp only [hf] at h
      cases hr : attachLinks db (k + 1) rest with
      | error e => simp [hr] at h
      | ok rest' =>
        simp only [hr] at h
        cases h
        simp [ih (k + 1) rest' hr, attached]

theorem attachLinks_of_no_fault (db : DB) (cats : List LinkCategory) (k : Nat)
    (h : ∀ i, i < cats.length → db.fault (k + i) = none) :
    attachLinks db k cats = .ok (cats.map (attached db)) := by
  induction cats generalizing k with
  | nil => simp [attachLinks]
  | cons c rest ih =>
    have h0 : db.fault k = none := by simpa using h 0 (by simp)
    have hrest : ∀ i, i < rest.length → db.fault (k + 1 + i) = none := by
      intro i hi
      have := h (i + 1) (by simp; omega)
      rwa [show k + (i + 1) = k + 1 + i by omega] at this
    simp [attachLinks, selectLinks, h0, ih (k + 1) hrest, attached]

theorem attachLinks_of_fault (db : DB) (cats : List LinkCategory) (k : Nat)
    (h : ∃ i, i < cats.length ∧ db.fault (k + i) ≠ none) :
    ∃ e, attachLinks db k cats = .error e := by
  induction cats generalizing k with
  | nil => obtain ⟨i, hi, _⟩ := h; simp at hi
  | cons c rest ih =>
    cases hf : db.fault k with
    | some msg => exact ⟨.other msg, by simp [attachLinks, selectLinks, hf]⟩
    | none =>
      have hrest : ∃ i, i < rest.length ∧ db.fault (k + 1 + i) ≠ none := by
        obtain ⟨i, hi, hne⟩ := h
        cases i with
        | zero => simp [hf] at hne
        | succ j =>
          refine ⟨j, by simpa using hi, ?_⟩
          rwa [show k + 1 + j = k + (j + 1) by omega]
      obtain ⟨e, he⟩ := ih (k + 1) hrest
      exact ⟨e, by simp [attachLinks, selectLinks, hf, he]⟩

theorem scanLink_injective {r r' : LinkRow} (h : scanLink r = scanLink r') : r = r' := by
  cases r
  cases r'
  simp only [scanLink, Link.mk.injEq] at h
  obtain ⟨h1, h2, h3, h4, h5, h6, h7, h8⟩ := h
  have := intToString_injective _ _ h8
  simp_all

theorem linksHandler_of_no_fault (env : Env) (db : DB)
    (hok : ∀ k, k ≤ db.link_categories.length → db.fault k = none) :
    linksHandler env db =
      { linksExec := [linksPage db], baseExec := [env.linksTemplate (linksPage db)],
        body := env.baseTemplate (env.linksTemplate (linksPage db)) } := by
  have h0 : db.fault 0 = none := hok 0 (Nat.zero_le _)
  have hlen : (orderBy LinkCategoryRow.name db.link_categories).length
      = db.link_categories.length := (orderBy_perm _ _).length_eq
  have hat := attachLinks_of_no_fault db
    ((orderBy LinkCategoryRow.name db.link_categories).map scanLinkCategory) 1
    (by
      intro i hi
      rw [List.length_map, hlen] at hi
      exact hok (1 + i) (by omega))
  have hpage : ((orderBy LinkCategoryRow.name db.link_categories).map scanLinkCategory).map
      (attached db) = linksPage db := by
    simp [linksPage, attached, scanLinkCategory]
  rw [hpage] at hat
  simp [linksHandler, selectLinkCategories, h0, hat]

theorem linksHandler_exec (env : Env) (db : DB) (cs : List LinkCategory)
    (h : cs ∈ (linksHandler env db).linksExec) : cs = linksPage db := by
  unfold linksHandler selectLinkCategories at h
  cases hf : db.fault 0 with
  | some msg => simp [hf] at h
  | none =>
    simp only [hf] at h
    cases hat : attachLinks db 1
        ((orderBy LinkCategoryRow.name db.link_categories).map scanLinkCategory) with
    | error e => simp [hat] at h
    | ok out =>
      simp only [hat, List.mem_singleton] at h
      rw [h, attachLinks_ok db _ 1 out hat]
      simp [linksPage, attached, scanLinkCategory]

theorem linksPage_sorted (db : DB) :
    (linksPage db).Sorted (fun a b => a.Name ≤ b.Name) := by
  unfold linksPage
  rw [List.Sorted, List.pairwise_map]
  exact orderBy_sorted LinkCategoryRow.name _

theorem linksPage_links (db : DB) (c : LinkCategory) (h : c ∈ linksPage db) :
    c.Links = queryLinks db c.Id ∧ ∃ r ∈ db.link_categories, r.id = c.Id ∧ r.name = c.Name := by
  unfold linksPage at h
  obtain ⟨r, hr, rfl⟩ := List.mem_map.1 h
  exact ⟨rfl, r, ((orderBy_perm _ _).mem_iff).1 hr, rfl, rfl⟩

/-- C3 (ordering of `/links`). Whatever list the links template is executed
with, its categories are in non-decreasing order of their names and the links
of every category are in non-decreasing order of their titles (strings compared
character by character). -/
theorem links_ordering (env : Env) (db : DB) (cs : List LinkCategory)
    (h : cs ∈ (linksHandler env db).linksExec) :
    cs.Sorted (fun a b => a.Name ≤ b.Name) ∧
    ∀ c ∈ cs, c.Links.Sorted (fun a b => a.Title ≤ b.Title) := by
  rw [linksHandler_exec env db cs h]
  refine ⟨linksPage_sorted db, ?_⟩
  intro c hc
  rw [(linksPage_links db c hc).1]
  exact queryLinks_sorted db c.Id

/-- C3, on the sample links database: the page lists `blogs`, `empty`, `tools`
and, under `tools`, `awk` before `zsh`. -/
theorem links_ordering_witness :
    sampleLinksPage ∈ (linksHandler sampleEnv sampleLinksDB).linksExec ∧
    sampleLinksPage.Sorted (fun a b => a.Name ≤ b.Name) ∧
    ∀ c ∈ sampleLinksPage, c.Links.Sorted (fun a b => a.Title ≤ b.Title) :=
  ⟨by decide, links_ordering sampleEnv sampleLinksDB sampleLinksPage (by decide)⟩

/-- C7 (links grouping). When every query succeeds, the links template is
executed once; the categories of its list are, with multiplicity, the rows of
`link_categories`; the links of each category are, with multiplicity, the rows
of `links` whose `category_id` is the id of the category, whatever their
`user_id`; and a link whose `category_id` is the id of no category is attached
to no category. -/
theorem links_grouping (env : Env) (db : DB) (hok : ∀ k, db.fault k = none) :
    ∃ cs, (linksHandler env db).linksExec = [cs] ∧
      (cs.map (fun c => ({ id := c.Id, name := c.Name } : LinkCategoryRow))).Perm
        db.link_categories ∧
      (∀ c ∈ cs, c.Links.Perm
        ((db.links.filter (fun r => r.category_id = c.Id)).map scanLink)) ∧
      (∀ r ∈ db.links, (∀ c ∈ db.link_categories, c.id ≠ r.category_id) →
        ∀ c ∈ cs, scanLink r ∉ c.Links) := by
  refine ⟨linksPage db, ?_, ?_, ?_, ?_⟩
  · rw [linksHandler_of_no_fault env db (fun k _ => hok k)]
  · have h := orderBy_perm LinkCategoryRow.name db.link_categories
    have hmap : (linksPage db).map (fun c => ({ id := c.Id, name := c.Name } : LinkCategoryRow))
        = orderBy LinkCategoryRow.name db.link_categories := by
      unfold linksPage
      rw [List.map_map]
      exact List.map_id _
    rw [hmap]
    exact h
  · intro c hc
    rw [(linksPage_links db c hc).1]
    exact queryLinks_perm db c.Id
  · intro r _ hno c hc hmem
    obtain ⟨hl, row, hrow, hid, _⟩ := linksPage_links db c hc
    rw [hl] at hmem
    have hmem' := (queryLinks_perm db c.Id).mem_iff.1 hmem
    obtain ⟨r', hr', heq⟩ := List.mem_map.1 hmem'
    have : r' = r := scanLink_injective heq
    subst this
    simp only [List.mem_filter, decide_eq_true_eq] at hr'
    exact hno row hrow (by rw [hid, hr'.2])

/-- C7, on the sample links database: the link `orphan` of the missing
category 9 is on the page nowhere. -/
theorem links_grouping_witness :
    (∀ k, sampleLinksDB.fault k = none) ∧
    ∃ cs, (linksHandler sampleEnv sampleLinksDB).linksExec = [cs] ∧
      (cs.map (fun c => ({ id := c.Id, name := c.Name } : LinkCategoryRow))).Perm
        sampleLinksDB.link_categories ∧
      (∀ c ∈ cs, c.Links.Perm
        ((sampleLinksDB.links.filter (fun r => r.category_id = c.Id)).map scanLink)) ∧
      (∀ r ∈ sampleLinksDB.links, (∀ c ∈ sampleLinksDB.link_categories, c.id ≠ r.category_id) →
        ∀ c ∈ cs, scanLink r ∉ c.Links) :=
  ⟨fun _ => rfl, links_grouping sampleEnv sampleLinksDB (fun _ => rfl)⟩

/-- C8 (empty category). When every query succeeds, a category without any row
in `links` is on the page with an empty link list, and the page is rendered:
the links template is executed with the whole list and the base template is
written; nothing is printed as an error. -/
theorem empty_category (env : Env) (db : DB) (c : LinkCategoryRow)
    (hok : ∀ k, k ≤ db.link_categories.length → db.fault k = none)
    (hc : c ∈ db.link_categories) (hno : ∀ r ∈ db.links, r.category_id ≠ c.id) :
    ∃ cs, linksHandler env db =
        { linksExec := [cs], baseExec := [env.linksTemplate cs],
          body := env.baseTemplate (env.linksTemplate cs) } ∧
      { Id := c.id, Name := c.name, Links := [] } ∈ cs := by
  refine ⟨linksPage db, linksHandler_of_no_fault env db hok, ?_⟩
  unfold linksPage
  refine List.mem_map.2 ⟨c, ((orderBy_perm _ _).mem_iff).2 hc, ?_⟩
  have hnil : db.links.filter (fun r => r.category_id == c.id) = [] := by
    rw [List.filter_eq_nil_iff]
    intro r hr
    simpa using hno r hr
  simp [queryLinks, hnil, orderBy]

/-- C8, on the sample links database: category 3 has no link. -/
theorem empty_category_witness :
    (∀ r ∈ sampleLinksDB.links, r.category_id ≠ 3) ∧
    ∃ cs, linksHandler sampleEnv sampleLinksDB =
        { linksExec := [cs], baseExec := [sampleEnv.linksTemplate cs],
          body := sampleEnv.baseTemplate (sampleEnv.linksTemplate cs) } ∧
      { Id := 3, Name := "empty", Links := [] } ∈ cs :=
  ⟨by decide,
   empty_category sampleEnv sampleLinksDB { id := 3, name := "empty" } (fun _ _ => rfl)
    (by decide) (by decide)⟩

/-- C9 (abort on a query error). When the category query fails, or the links
query of any category fails, also after the links of earlier categories were
fetched, the `/links` handler executes no template, sets no status code and
writes nothing: its only effect is one printed line. -/
theorem links_abort (env : Env) (db : DB)
    (h : ∃ k, k ≤ db.link_categories.length ∧ db.fault k ≠ none) :
    ∃ line, linksHandler env db = { stdout := [line] } := by
  obtain ⟨k, hk, hne⟩ := h
  unfold linksHandler selectLinkCategories
  cases hf : db.fault 0 with
  | some msg => exact ⟨msg, by simp [SqlError.Error]⟩
  | none =>
    have hlen : (orderBy LinkCategoryRow.name db.link_categories).length
        = db.link_categories.length := (orderBy_perm _ _).length_eq
    have hk0 : k ≠ 0 := by
      rintro rfl
      exact hne hf
    obtain ⟨e, he⟩ := attachLinks_of_fault db
      ((orderBy LinkCategoryRow.name db.link_categories).map scanLinkCategory) 1
      ⟨k - 1, by rw [List.length_map, hlen]; omega, by
        rwa [show 1 + (k - 1) = k by omega]⟩
    exact ⟨e.Error, by simp [he]⟩

/-- C9, on the sample links database when the third query, the links query of
the second category, fails. -/
theorem links_abort_witness :
    linksHandler sampleEnv
        { sampleLinksDB with fault := fun k => if k = 2 then some "disk I/O error" else none } =
      { stdout := ["disk I/O error"] } ∧
    ∃ line, linksHandler sampleEnv
        { sampleLinksDB with fault := fun k => if k = 2 then some "disk I/O error" else none } =
      { stdout := [line] } :=
  ⟨by decide,
   links_abort sampleEnv
    { sampleLinksDB with fault := fun k => if k = 2 then some "disk I/O error" else none }
    ⟨2, by decide, by decide⟩⟩

/-! ## The route table -/

theorem match_static (path : String) (h : "/static/".data <+: path.data) :
    Router.Match path = some (.stripPfx "/static/") := by
  have hp : "/static/".data.isPrefixOf path.data = true := List.isPrefixOf_iff_prefix.2 h
  simp [Router.Match, routes, List.find?, Matcher.Match, hp]

theorem match_other (path : String) (h : ¬ "/static/".data <+: path.data) :
    Router.Match path =
      if path = "/" then some (.renderMainPage "maincontent")
      else if path = "/privacypolicy" then some (.renderMainPage "privacypolicy")
      else if path = "/links" then some .links
      else none := by
  have hp : "/static/".data.isPrefixOf path.data = false := by
    rw [← Bool.not_eq_true, List.isPrefixOf_iff_prefix]
    exact h
  simp only [Router.Match, routes, List.find?, Matcher.Match, hp]
  by_cases h1 : path = "/"
  · subst h1; rfl
  · by_cases h2 : path = "/privacypolicy"
    · subst h2; rfl
    · by_cases h3 : path = "/links"
      · subst h3; rfl
      · have e1 : (path == "/") = false := by simpa using h1
        have e2 : (path == "/privacypolicy") = false := by simpa using h2
        have e3 : (path == "/links") = false := by simpa using h3
        simp [h1, h2, h3, e1, e2, e3]

/-- C5, as stated, fails: the path `/static/../links` begins with `/static/`,
yet the router does not hand it to the file server; it answers with a redirect
to the clean path `/links`. -/
theorem route_dispatch_counterexample :
    "/static/".data <+: "/static/../links".data ∧
    Router.ServeHTTP { Path := "/static/../links", RawPath := "" }
      = .movedPermanently "/links" ∧
    Router.ServeHTTP { Path := "/static/../links", RawPath := "" } ≠ .fileServer "../links" := by
  refine ⟨?_, ?_, ?_⟩
  · exact List.isPrefixOf_iff_prefix.1 (by decide)
  · decide
  · decide

/-- C5, amended (route dispatch of clean paths). The paths `/`,
`/privacypolicy` and `/links` go to `renderMainPage` with `maincontent`, to
`renderMainPage` with `privacypolicy` and to the links handler, whatever the
escaped path. A path in clean form that begins with `/static/`, the escaped
path being absent or beginning with `/static/` too, goes to the file server,
which gets the path without these eight characters. Every other path in clean
form is matched by no route and gets the not-found handler. A path that is not
in clean form is matched against no route: it is redirected to its clean
form. -/
theorem route_dispatch_clean :
    (∀ raw, Router.Match "/" = some (.renderMainPage "maincontent") ∧
      Router.ServeHTTP { Path := "/", RawPath := raw } = .mainPage "maincontent") ∧
    (∀ raw, Router.Match "/privacypolicy" = some (.renderMainPage "privacypolicy") ∧
      Router.ServeHTTP { Path := "/privacypolicy", RawPath := raw }
        = .mainPage "privacypolicy") ∧
    (∀ raw, Router.Match "/links" = some .links ∧
      Router.ServeHTTP { Path := "/links", RawPath := raw } = .linksPage) ∧
    (∀ u : URL, cleanPath u.Path = u.Path → "/static/".data <+: u.Path.data →
      (u.RawPath = "" ∨ "/static/".data <+: u.RawPath.data) →
      Router.Match u.Path = some (.stripPfx "/static/") ∧
      Router.ServeHTTP u = .fileServer (String.mk (u.Path.data.drop 8))) ∧
    (∀ u : URL, cleanPath u.Path = u.Path → u.Path ≠ "/" → u.Path ≠ "/privacypolicy" →
      u.Path ≠ "/links" → ¬ "/static/".data <+: u.Path.data →
      Router.Match u.Path = none ∧ Router.ServeHTTP u = .notFound) ∧
    (∀ u : URL, cleanPath u.Path ≠ u.Path →
      Router.ServeHTTP u = .movedPermanently (cleanPath u.Path)) := by
  refine ⟨?_, ?_, ?_, ?_, ?_, ?_⟩
  · intro raw
    exact ⟨by decide, by
      have hc : cleanPath "/" = "/" := by decide
      have hm : Router.Match "/" = some (.renderMainPage "maincontent") := by decide
      simp [Router.ServeHTTP, hc, hm]⟩
  · intro raw
    exact ⟨by decide, by
      have hc : cleanPath "/privacypolicy" = "/privacypolicy" := by decide
      have hm : Router.Match "/privacypolicy" = some (.renderMainPage "privacypolicy") := by
        decide
      simp [Router.ServeHTTP, hc, hm]⟩
  · intro raw
    exact ⟨by decide, by
      have hc : cleanPath "/links" = "/links" := by decide
      have hm : Router.Match "/links" = some .links := by decide
      simp [Router.ServeHTTP, hc, hm]⟩
  · intro u hclean h hraw
    have hm := match_static u.Path h
    refine ⟨hm, ?_⟩
    have hp : "/static/".data.isPrefixOf u.Path.data = true := List.isPrefixOf_iff_prefix.2 h
    have hr : u.RawPath = "" ∨ "/static/".data.isPrefixOf u.RawPath.data = true :=
      hraw.imp id List.isPrefixOf_iff_prefix.2
    have hne : ¬ ("/static/".data = []) := by decide
    simp only [Router.ServeHTTP, hclean, ne_eq, not_true_eq_false, if_false, hm, StripPrefix]
    rw [if_neg hne, if_pos ⟨hp, hr⟩]
    rfl
  · intro u hclean h1 h2 h3 h
    have hm := match_other u.Path h
    simp only [h1, h2, h3, if_false] at hm
    exact ⟨hm, by simp [Router.ServeHTTP, hclean, hm]⟩
  · intro u hne
    simp [Router.ServeHTTP, hne]

/-- C5, amended, on four requests: a static asset, a static asset with an
escaped path, and two clean paths that no route accepts. -/
theorem route_dispatch_clean_witness :
    Router.ServeHTTP { Path := "/static/css/site.css", RawPath := "" }
      = .fileServer "css/site.css" ∧
    Router.ServeHTTP { Path := "/static/a b.css", RawPath := "/static/a%20b.css" }
      = .fileServer "a b.css" ∧
    Router.ServeHTTP { Path := "/links/", RawPath := "" } = .notFound ∧
    Router.ServeHTTP { Path := "/static", RawPath := "" } = .notFound ∧
    Router.ServeHTTP { Path := "//links", RawPath := "" } = .movedPermanently "/links" :=
  ⟨(route_dispatch_clean.2.2.2.1 { Path := "/static/css/site.css", RawPath := "" }
      (by decide) (List.isPrefixOf_iff_prefix.1 (by decide)) (Or.inl rfl)).2,
   (route_dispatch_clean.2.2.2.1 { Path := "/static/a b.css", RawPath := "/static/a%20b.css" }
      (by decide) (List.isPrefixOf_iff_prefix.1 (by decide))
      (Or.inr (List.isPrefixOf_iff_prefix.1 (by decide)))).2,
   (route_dispatch_clean.2.2.2.2.1 { Path := "/links/", RawPath := "" }
      (by decide) (by decide) (by decide) (by decide)
      (fun h => absurd (List.isPrefixOf_iff_prefix.2 h) (by decide))).2,
   (route_dispatch_clean.2.2.2.2.1 { Path := "/static", RawPath := "" }
      (by decide) (by decide) (by decide) (by decide)
      (fun h => absurd (List.isPrefixOf_iff_prefix.2 h) (by decide))).2,
   route_dispatch_clean.2.2.2.2.2 { Path := "//links", RawPath := "" } (by decide)⟩

end BetterReflect
